import Mathlib

/-!
Shallow embedding of the validator-candidate admission and ranking engine of
`src/constraints.ts` (class `OTV`).  JavaScript numbers are modelled as exact
rationals (`ℚ`); the result-pair convention `[value, err]` of the chain-data
reader is modelled as `ℚ × Option String` (a `some` error means the read
failed); a thrown / caught JavaScript exception around the cross-network HTTP
lookup is modelled as `Except String KusamaResponse`.  External collaborators
(chain-data reader, storage, HTTP client, semver library, blake2 hash, clock)
are fields of an `Env` record, as in spec section 6.
-/

/-- One candidate node, the fields of `CandidateData` that `constraints.ts`
reads.  Numeric fields are modelled as present rationals; `unclaimedEras` and
`kusamaStash` keep their JavaScript optionality (`none` models an
undefined/null `unclaimedEras`, and for `kusamaStash` a falsy value, i.e.
undefined or the empty string, since the source guards it with `!!kusamaStash`). -/
structure Candidate where
  name : String
  stash : String
  identity : String
  version : String
  discoveredAt : ℚ
  onlineSince : ℚ
  offlineSince : ℚ
  offlineAccumulated : ℚ
  bonded : ℚ
  faults : ℚ
  inclusion : ℚ
  spanInclusion : ℚ
  rank : ℚ
  nominatedAt : ℚ
  unclaimedEras : Option (List ℚ)
  kusamaStash : Option String
  skipSelfStake : Bool
deriving DecidableEq, Repr

/-- Body of the JSON answer of the cross-network (kusama) backend,
`res.data` in the source.  `rank = none` models a missing or non-numeric
`rank` field, i.e. one whose JavaScript coercion `Number(res.data.rank)`
is `NaN`. -/
structure KusamaResponse where
  invalidityReasons : Option String
  rank : Option ℚ
deriving DecidableEq, Repr

/-- JavaScript truthiness of `res.data.invalidityReasons` (a string field):
undefined and the empty string are falsy. -/
def jsTruthyStr : Option String → Bool
  | none => false
  | some s => !(s == "")

/-- The comparison `Number(res.data.rank) < 25` of the source.  When the rank
field is missing or non-numeric, `Number` yields `NaN` and `NaN < 25` is
`false`; `none` models that `NaN` case. -/
def rankBelow25 : Option ℚ → Bool
  | none => false
  | some r => decide (r < 25)

/-- Printing of `res.data.rank` inside a template string. -/
def rankText : Option ℚ → String
  | none => "undefined"
  | some r => toString r

/-- External collaborators of the engine (spec section 6): the chain-data
reader, the storage record of the latest client release, the clock, the
address formatter (with the network config folded in), the semver library
(`versionGte version latest` models `semver.gte(semver.coerce(version),
semver.clean(latest))`), the blake2 digest, and the cross-network HTTP
lookup. -/
structure Env where
  validators : List String
  formatAddress : String → String
  latestRelease : Option String
  versionGte : String → String → Bool
  now : ℚ
  hasIdentity : String → Bool × Bool
  getIdentity : String → String
  blake2AsHex : String → String
  destinationIsStaked : String → Bool
  getCommission : String → ℚ × Option String
  getBondedAmount : String → ℚ × Option String
  getActiveEraIndex : ℚ × Option String
  kusamaLookup : String → Except String KusamaResponse

/-- Constraint configuration of the `OTV` constructor (spec section 3). -/
structure Config where
  skipConnectionTime : Bool
  skipIdentity : Bool
  skipStakedDestination : Bool
  skipClientUpgrade : Bool
  skipUnclaimed : Bool
  minSelfStake : ℚ
  commission : ℚ
  unclaimedEraThreshold : ℚ

/-- Modelled from the spec: the constant `WEEK` of `src/constants.ts` (that
file is not under `src/`), one week in milliseconds, the "fixed minimum
window (one week)" of spec section 4.3 step 4. -/
def WEEK : ℚ := 7 * 24 * 60 * 60 * 1000

/-- The lookup `map.get(k) || 0` on a JavaScript `Map` modelled as an
association list in insertion order (absent keys give the default). -/
def mapGetD (m : List (String × Nat)) (k : String) (d : Nat) : Nat :=
  match m.find? (fun p => p.1 == k) with
  | some p => p.2
  | none => d

/-- The update `map.set(k, v)` of a JavaScript `Map`: replace the value at an
existing key in place, otherwise append the new key in insertion order. -/
def mapSet : List (String × Nat) → String → Nat → List (String × Nat)
  | [], k, v => [(k, v)]
  | p :: rest, k, v => if p.1 == k then (k, v) :: rest else p :: mapSet rest k v

/-- `OTV.populateIdentityHashTable`: for each candidate, fetch the identity
string of its stash, digest it, and increment the table entry of that
digest. -/
def populateIdentityHashTable (env : Env) (candidates : List Candidate) :
    List (String × Nat) :=
  candidates.foldl
    (fun map candidate =>
      let identityHash := env.blake2AsHex (env.getIdentity candidate.stash)
      let prevValue := mapGetD map identityHash 0
      mapSet map identityHash (prevValue + 1))
    []

/-- The count looked up for a candidate's identity digest inside the identity
check of `checkSingleCandidate` (`identityHashTable.get(idHash) || 0`). -/
def identityNumIds (env : Env) (table : List (String × Nat)) (c : Candidate) : Nat :=
  mapGetD table (env.blake2AsHex (env.getIdentity c.stash)) 0

/-- The client-version condition of `checkSingleCandidate` as one boolean:
a latest release exists, the coerced node version is not `semver.gte` it, and
`skipClientUpgrade` is off. -/
def clientVersionStale (env : Env) (cfg : Config) (c : Candidate) : Bool :=
  match env.latestRelease with
  | some latestRelease =>
    !(env.versionGte c.version latestRelease) && !cfg.skipClientUpgrade
  | none => false

/-- Tail of `checkSingleCandidate` from the cross-network block on
(`src/constraints.ts` lines 272-296): the `try` around the kusama lookup whose
`catch` only logs, so a failed lookup falls through to `return [true, ""]`. -/
def checkKusamaThen (env : Env) (c : Candidate) : Bool × String :=
  match c.kusamaStash with
  | none => (true, "")
  | some kusamaStash =>
    match env.kusamaLookup kusamaStash with
    | Except.error _ => (true, "")
    | Except.ok res =>
      if jsTruthyStr res.invalidityReasons then
        (false, c.name ++ " has a kusama node that is invalid: "
          ++ res.invalidityReasons.getD "")
      else if rankBelow25 res.rank then
        (false, c.name ++ " has a Kusama stash with lower than 25 rank in the Kusama OTV programme: "
          ++ rankText res.rank ++ ".")
      else (true, "")

/-- Tail of `checkSingleCandidate` from the unclaimed-eras block on
(`src/constraints.ts` lines 258-270).  The source destructures
`[currentEra, err3]` from `getActiveEraIndex` but never inspects `err3`; the
translation mirrors that by using only the value component. -/
def checkUnclaimedThen (env : Env) (cfg : Config) (c : Candidate) : Bool × String :=
  if cfg.skipUnclaimed then checkKusamaThen env c
  else
    let currentEra := (env.getActiveEraIndex).1
    let threshold := currentEra - cfg.unclaimedEraThreshold - 1
    match c.unclaimedEras with
    | some unclaimedEras =>
      if ¬ unclaimedEras.all (fun era => era > threshold) then
        (false, c.name ++ " has unclaimed eras: " ++ toString unclaimedEras
          ++ " prior to era: " ++ toString (threshold + 1))
      else checkKusamaThen env c
    | none => checkKusamaThen env c

/-- Tail of `checkSingleCandidate` from the self-stake block on
(`src/constraints.ts` lines 244-256). -/
def checkSelfStakeThen (env : Env) (cfg : Config) (c : Candidate) : Bool × String :=
  if c.skipSelfStake then checkUnclaimedThen env cfg c
  else
    match env.getBondedAmount c.stash with
    | (_, some err2) => (false, c.name ++ " " ++ err2)
    | (bondedAmt, none) =>
      if bondedAmt < cfg.minSelfStake then
        (false, c.name ++ " has less than the minimum amount bonded: "
          ++ toString bondedAmt ++ " is bonded.")
      else checkUnclaimedThen env cfg c

/-- `OTV.checkSingleCandidate`, translated clause by clause from
`src/constraints.ts` lines 141-297: each early `return [false, reason]` of the
source becomes one arm, in source order; the blocks after the
reward-destination check continue through `checkSelfStakeThen`,
`checkUnclaimedThen` and `checkKusamaThen` exactly as the source falls
through its remaining blocks. -/
def checkSingleCandidate (env : Env) (cfg : Config) (c : Candidate)
    (identityHashTable : List (String × Nat)) : Bool × String :=
  -- Ensure the candidate is online.
  if c.onlineSince = 0 ∨ c.offlineSince ≠ 0 then
    (false, c.name ++ " offline. Offline since " ++ toString c.offlineSince ++ ".")
  -- Check that the validator has a validate intention
  else if ¬ env.validators.contains (env.formatAddress c.stash) then
    (false, c.name ++ " does not have a validate intention")
  -- Only take nodes that have been upgraded to latest versions.
  else if clientVersionStale env cfg c then
    (false, c.name ++ " is not running the latest client code.")
  -- Ensure the node has been connected for a minimum of one week.
  else if ¬ cfg.skipConnectionTime ∧ env.now - c.discoveredAt < WEEK then
    (false, c.name ++ " hasn't been connected for minimum length.")
  -- Ensure the validator stash has an identity set.
  else if ¬ cfg.skipIdentity ∧ ¬ (env.hasIdentity c.stash).1 then
    (false, c.name ++ " does not have an identity set.")
  else if ¬ cfg.skipIdentity ∧ ¬ (env.hasIdentity c.stash).2 then
    (false, c.name ++ " has an identity but is not verified by registrar.")
  else if ¬ cfg.skipIdentity ∧
      (identityNumIds env identityHashTable c = 0 ∨ identityNumIds env identityHashTable c > 2) then
    (false, c.name ++ " has too many candidates in the set with same identity. Number: "
      ++ toString (identityNumIds env identityHashTable c) ++ " Hash: "
      ++ env.blake2AsHex (env.getIdentity c.stash))
  -- Ensures node has 98% up time.
  else if c.offlineAccumulated / WEEK > 0.02 then
    (false, c.name ++ " has been offline " ++ toString (c.offlineAccumulated / 1000 / 60)
      ++ " minutes this week.")
  -- Ensure that the reward destination is set to Staked
  else if ¬ cfg.skipStakedDestination ∧ ¬ env.destinationIsStaked c.stash then
    (false, c.name ++ " does not have reward destination set to Staked")
  else
    -- Ensure that the commission is in line with the network rules
    match env.getCommission c.stash with
    | (_, some err) => (false, c.name ++ " " ++ err)
    | (commission, none) =>
      if commission > cfg.commission then
        (false, c.name ++ " commission is set higher than the maximum allowed. Set: "
          ++ toString commission ++ " Allowed: " ++ toString cfg.commission)
      else checkSelfStakeThen env cfg c

/-- Check 1 of spec section 4.3: the online check. -/
def checkOnline (c : Candidate) : Option String :=
  if c.onlineSince = 0 ∨ c.offlineSince ≠ 0 then
    some (c.name ++ " offline. Offline since " ++ toString c.offlineSince ++ ".")
  else none

/-- Check 2 of spec section 4.3: the validate-intention check. -/
def checkIntention (env : Env) (c : Candidate) : Option String :=
  if ¬ env.validators.contains (env.formatAddress c.stash) then
    some (c.name ++ " does not have a validate intention")
  else none

/-- Check 3 of spec section 4.3: the client-version check, evaluated only when
a latest release record exists and `skipClientUpgrade` is off. -/
def checkVersion (env : Env) (cfg : Config) (c : Candidate) : Option String :=
  match env.latestRelease with
  | some latestRelease =>
    if ¬ env.versionGte c.version latestRelease ∧ ¬ cfg.skipClientUpgrade then
      some (c.name ++ " is not running the latest client code.")
    else none
  | none => none

/-- Check 4 of spec section 4.3: the connection-age check. -/
def checkConnection (env : Env) (cfg : Config) (c : Candidate) : Option String :=
  if ¬ cfg.skipConnectionTime ∧ env.now - c.discoveredAt < WEEK then
    some (c.name ++ " hasn't been connected for minimum length.")
  else none

/-- Check 5 of spec section 4.3: the identity checks (identity set, registrar
verified, and the anti-Sybil occurrence-count bound). -/
def checkIdentity (env : Env) (cfg : Config) (c : Candidate)
    (table : List (String × Nat)) : Option String :=
  if cfg.skipIdentity then none
  else
    let hasIdentityVerified := env.hasIdentity c.stash
    if ¬ hasIdentityVerified.1 then
      some (c.name ++ " does not have an identity set.")
    else if ¬ hasIdentityVerified.2 then
      some (c.name ++ " has an identity but is not verified by registrar.")
    else
      let numIds := identityNumIds env table c
      if numIds = 0 ∨ numIds > 2 then
        some (c.name ++ " has too many candidates in the set with same identity. Number: "
          ++ toString numIds ++ " Hash: " ++ env.blake2AsHex (env.getIdentity c.stash))
      else none

/-- Check 6 of spec section 4.3: the uptime check (not skippable). -/
def checkUptime (c : Candidate) : Option String :=
  if c.offlineAccumulated / WEEK > 0.02 then
    some (c.name ++ " has been offline " ++ toString (c.offlineAccumulated / 1000 / 60)
      ++ " minutes this week.")
  else none

/-- Check 7 of spec section 4.3: the reward-destination check. -/
def checkStaked (env : Env) (cfg : Config) (c : Candidate) : Option String :=
  if ¬ cfg.skipStakedDestination ∧ ¬ env.destinationIsStaked c.stash then
    some (c.name ++ " does not have reward destination set to Staked")
  else none

/-- Check 8 of spec section 4.3: the commission check, whose read error is
itself an invalidity reason. -/
def checkCommission (env : Env) (cfg : Config) (c : Candidate) : Option String :=
  match env.getCommission c.stash with
  | (_, some err) => some (c.name ++ " " ++ err)
  | (commission, none) =>
    if commission > cfg.commission then
      some (c.name ++ " commission is set higher than the maximum allowed. Set: "
        ++ toString commission ++ " Allowed: " ++ toString cfg.commission)
    else none

/-- Check 9 of spec section 4.3: the self-stake check, skippable per candidate. -/
def checkSelfStake (env : Env) (cfg : Config) (c : Candidate) : Option String :=
  if c.skipSelfStake then none
  else
    match env.getBondedAmount c.stash with
    | (_, some err2) => some (c.name ++ " " ++ err2)
    | (bondedAmt, none) =>
      if bondedAmt < cfg.minSelfStake then
        some (c.name ++ " has less than the minimum amount bonded: "
          ++ toString bondedAmt ++ " is bonded.")
      else none

/-- Check 10 of spec section 4.3: the unclaimed-rewards check.  As in the
source, the error component of `getActiveEraIndex` is ignored here. -/
def checkUnclaimed (env : Env) (cfg : Config) (c : Candidate) : Option String :=
  if cfg.skipUnclaimed then none
  else
    let currentEra := (env.getActiveEraIndex).1
    let threshold := currentEra - cfg.unclaimedEraThreshold - 1
    match c.unclaimedEras with
    | some unclaimedEras =>
      if ¬ unclaimedEras.all (fun era => era > threshold) then
        some (c.name ++ " has unclaimed eras: " ++ toString unclaimedEras
          ++ " prior to era: " ++ toString (threshold + 1))
      else none
    | none => none

/-- Check 11 of spec section 4.3: the advisory cross-network check; a thrown
lookup is swallowed, so only a delivered response can fail the candidate. -/
def checkKusama (env : Env) (c : Candidate) : Option String :=
  match c.kusamaStash with
  | none => none
  | some kusamaStash =>
    match env.kusamaLookup kusamaStash with
    | Except.error _ => none
    | Except.ok res =>
      if jsTruthyStr res.invalidityReasons then
        some (c.name ++ " has a kusama node that is invalid: "
          ++ res.invalidityReasons.getD "")
      else if rankBelow25 res.rank then
        some (c.name ++ " has a Kusama stash with lower than 25 rank in the Kusama OTV programme: "
          ++ rankText res.rank ++ ".")
      else none

/-- The eleven checks of spec section 4.3, in the fixed order of the spec and
of the source: online, validator intention, client version, connection age,
identity, uptime, reward destination, commission, self-stake, unclaimed eras,
cross-network.  Each entry is `none` when the check passes or is skipped, and
`some reason` when it fails. -/
def checks (env : Env) (cfg : Config) (c : Candidate)
    (table : List (String × Nat)) : List (Option String) :=
  [checkOnline c,
   checkIntention env c,
   checkVersion env cfg c,
   checkConnection env cfg c,
   checkIdentity env cfg c table,
   checkUptime c,
   checkStaked env cfg c,
   checkCommission env cfg c,
   checkSelfStake env cfg c,
   checkUnclaimed env cfg c,
   checkKusama env c]

/-- First failure of a sequence of check outcomes. -/
def firstFailure : List (Option String) → Option String
  | [] => none
  | some r :: _ => some r
  | none :: rest => firstFailure rest

/-- Verdict of running a sequence of checks with first-failure-wins
semantics: `(false, r)` for the first failing reason `r`, else `(true, "")`. -/
def runChecks (l : List (Option String)) : Bool × String :=
  match firstFailure l with
  | some r => (false, r)
  | none => (true, "")

theorem firstFailure_cons (o : Option String) (l : List (Option String)) :
    firstFailure (o :: l) = o.or (firstFailure l) := by
  cases o <;> rfl

theorem firstFailure_append (l₁ l₂ : List (Option String)) :
    firstFailure (l₁ ++ l₂) = (firstFailure l₁).or (firstFailure l₂) := by
  induction l₁ with
  | nil => rfl
  | cons o l ih =>
    cases o with
    | none => simpa [firstFailure] using ih
    | some r => rfl

theorem checkKusamaThen_eq (env : Env) (c : Candidate) :
    checkKusamaThen env c = runChecks [checkKusama env c] := by
  unfold checkKusamaThen checkKusama runChecks
  rcases hks : c.kusamaStash with _ | ks
  · simp [firstFailure]
  · simp only []
    rcases hl : env.kusamaLookup ks with e | res
    · simp [firstFailure]
    · by_cases h1 : jsTruthyStr res.invalidityReasons = true
      · simp [h1, firstFailure]
      · by_cases h2 : rankBelow25 res.rank = true <;> simp [h1, h2, firstFailure]

theorem checkUnclaimedThen_eq (env : Env) (cfg : Config) (c : Candidate) :
    checkUnclaimedThen env cfg c =
      runChecks [checkUnclaimed env cfg c, checkKusama env c] := by
  have hk := checkKusamaThen_eq env c
  unfold checkUnclaimedThen checkUnclaimed
  by_cases hs : cfg.skipUnclaimed
  · simpa [hs, runChecks, firstFailure_cons] using hk
  · rcases hu : c.unclaimedEras with _ | eras
    · simpa [hs, runChecks, firstFailure_cons] using hk
    · by_cases hall : eras.all
        (fun era => era > (env.getActiveEraIndex).1 - cfg.unclaimedEraThreshold - 1) = true
      · simpa [hs, hall, runChecks, firstFailure_cons] using hk
      · simp [hs, hall, runChecks, firstFailure]

theorem checkSelfStakeThen_eq (env : Env) (cfg : Config) (c : Candidate) :
    checkSelfStakeThen env cfg c =
      runChecks [checkSelfStake env cfg c, checkUnclaimed env cfg c, checkKusama env c] := by
  have hu := checkUnclaimedThen_eq env cfg c
  unfold checkSelfStakeThen checkSelfStake
  by_cases hss : c.skipSelfStake
  · simpa [hss, runChecks, firstFailure_cons] using hu
  · rcases hb : env.getBondedAmount c.stash with ⟨amt, _ | e⟩
    · by_cases hlt : amt < cfg.minSelfStake
      · simp [hss, hb, hlt, runChecks, firstFailure]
      · simpa [hss, hb, hlt, runChecks, firstFailure_cons] using hu
    · simp [hss, hb, runChecks, firstFailure]

theorem checkVersion_eq_ite (env : Env) (cfg : Config) (c : Candidate) :
    checkVersion env cfg c =
      if clientVersionStale env cfg c then
        some (c.name ++ " is not running the latest client code.")
      else none := by
  unfold checkVersion clientVersionStale
  rcases env.latestRelease with _ | rel
  · rfl
  · by_cases hv : env.versionGte c.version rel = true <;>
      by_cases hs : cfg.skipClientUpgrade = true <;> simp [hv, hs]

theorem checkIdentity_eq_ite (env : Env) (cfg : Config) (c : Candidate)
    (table : List (String × Nat)) :
    checkIdentity env cfg c table =
      if ¬ cfg.skipIdentity ∧ ¬ (env.hasIdentity c.stash).1 then
        some (c.name ++ " does not have an identity set.")
      else if ¬ cfg.skipIdentity ∧ ¬ (env.hasIdentity c.stash).2 then
        some (c.name ++ " has an identity but is not verified by registrar.")
      else if ¬ cfg.skipIdentity ∧
          (identityNumIds env table c = 0 ∨ identityNumIds env table c > 2) then
        some (c.name ++ " has too many candidates in the set with same identity. Number: "
          ++ toString (identityNumIds env table c) ++ " Hash: "
          ++ env.blake2AsHex (env.getIdentity c.stash))
      else none := by
  unfold checkIdentity
  by_cases hs : cfg.skipIdentity = true
  · simp [hs]
  · by_cases h1 : (env.hasIdentity c.stash).1 = true
    · by_cases h2 : (env.hasIdentity c.stash).2 = true
      · by_cases h3 : identityNumIds env table c = 0 ∨ identityNumIds env table c > 2 <;>
          simp [hs, h1, h2, h3]
      · simp [hs, h1, h2]
    · simp [hs, h1]

theorem checkSingleCandidate_eq (env : Env) (cfg : Config) (c : Candidate)
    (table : List (String × Nat)) :
    checkSingleCandidate env cfg c table = runChecks (checks env cfg c table) := by
  have htail := checkSelfStakeThen_eq env cfg c
  have hver := checkVersion_eq_ite env cfg c
  have hid := checkIdentity_eq_ite env cfg c table
  unfold checkSingleCandidate checks checkOnline checkIntention checkConnection
    checkUptime checkStaked checkCommission
  rw [hver, hid]
  by_cases h1 : c.onlineSince = 0 ∨ c.offlineSince ≠ 0
  · simp [h1, runChecks, firstFailure]
  · by_cases h2 : env.formatAddress c.stash ∈ env.validators
    · by_cases h3 : clientVersionStale env cfg c = true
      · simp [h1, h2, h3, runChecks, firstFailure]
      · by_cases h4 : cfg.skipConnectionTime = false ∧ env.now - c.discoveredAt < WEEK
        · simp [h1, h2, h3, h4, runChecks, firstFailure]
        · by_cases h5 : cfg.skipIdentity = false ∧ (env.hasIdentity c.stash).1 = false
          · simp [h1, h2, h3, h4, h5, runChecks, firstFailure]
          · by_cases h6 : cfg.skipIdentity = false ∧ (env.hasIdentity c.stash).2 = false
            · have hhas : (env.hasIdentity c.stash).1 = true := by
                cases hx : (env.hasIdentity c.stash).1
                · exact absurd ⟨h6.1, hx⟩ h5
                · rfl
              simp [h1, h2, h3, h4, h5, h6, hhas, runChecks, firstFailure]
            · by_cases h7 : cfg.skipIdentity = false ∧
                (identityNumIds env table c = 0 ∨ identityNumIds env table c > 2)
              · have hhas : (env.hasIdentity c.stash).1 = true := by
                  cases hx : (env.hasIdentity c.stash).1
                  · exact absurd ⟨h7.1, hx⟩ h5
                  · rfl
                have hverif : (env.hasIdentity c.stash).2 = true := by
                  cases hx : (env.hasIdentity c.stash).2
                  · exact absurd ⟨h7.1, hx⟩ h6
                  · rfl
                simp [h1, h2, h3, h4, h5, h6, h7, hhas, hverif, runChecks, firstFailure]
              · by_cases h8 : c.offlineAccumulated / WEEK > 0.02
                · simp [h1, h2, h3, h4, h5, h6, h7, h8, runChecks, firstFailure]
                · by_cases h9 : cfg.skipStakedDestination = false ∧
                    env.destinationIsStaked c.stash = false
                  · simp [h1, h2, h3, h4, h5, h6, h7, h8, h9, runChecks, firstFailure]
                  · rcases hc : env.getCommission c.stash with ⟨comm, _ | e⟩
                    · by_cases h10 : comm > cfg.commission
                      · simp [h1, h2, h3, h4, h5, h6, h7, h8, h9, hc, h10,
                          runChecks, firstFailure]
                      · rw [htail]
                        simp [h1, h2, h3, h4, h5, h6, h7, h8, h9, hc, h10,
                          runChecks, firstFailure, firstFailure_cons]
                    · simp [h1, h2, h3, h4, h5, h6, h7, h8, h9, hc,
                        runChecks, firstFailure]
    · simp [h1, h2, runChecks, firstFailure]

theorem runChecks_eq_valid_iff (l : List (Option String)) :
    runChecks l = (true, "") ↔ ∀ o ∈ l, o = none := by
  induction l with
  | nil => simp [runChecks, firstFailure]
  | cons o rest ih =>
    cases o with
    | none => simpa [runChecks, firstFailure] using ih
    | some r => simp [runChecks, firstFailure]

theorem runChecks_eq_invalid_iff (l : List (Option String)) (r : String) :
    runChecks l = (false, r) ↔
      ∃ l₁ l₂, l = l₁ ++ some r :: l₂ ∧ ∀ o ∈ l₁, o = none := by
  induction l with
  | nil =>
    simp only [runChecks, firstFailure]
    constructor
    · intro h; exact absurd h (by simp)
    · rintro ⟨l₁, l₂, h, -⟩; exact absurd h (by simp)
  | cons o rest ih =>
    cases o with
    | some r₀ =>
      simp only [runChecks, firstFailure]
      constructor
      · intro h
        obtain rfl : r₀ = r := by simpa using congrArg Prod.snd h
        exact ⟨[], rest, rfl, by simp⟩
      · rintro ⟨l₁, l₂, h, hnone⟩
        cases l₁ with
        | nil => simp at h; simp [h.1]
        | cons a l₁ =>
          have : a = none := hnone a (by simp)
          simp [this] at h
    | none =>
      constructor
      · intro h
        obtain ⟨l₁, l₂, hsplit, hnone⟩ :=
          ih.1 (by simpa [runChecks, firstFailure] using h)
        exact ⟨none :: l₁, l₂, by simp [hsplit], by simpa using hnone⟩
      · rintro ⟨l₁, l₂, hsplit, hnone⟩
        cases l₁ with
        | nil => simp at hsplit
        | cons a l₁ =>
          simp only [List.cons_append, List.cons.injEq] at hsplit
          rw [runChecks, firstFailure, ← runChecks]
          exact ih.2 ⟨l₁, l₂, hsplit.2, fun o ho => hnone o (by simp [ho])⟩

theorem firstFailure_eq_none_of_forall (l : List (Option String))
    (h : ∀ o ∈ l, o = none) : firstFailure l = none := by
  induction l with
  | nil => rfl
  | cons o rest ih =>
    have ho : o = none := h o (by simp)
    subst ho
    exact ih (fun o hmem => h o (by simp [hmem]))

/-- Claim C1: `checkSingleCandidate` evaluates the eleven checks of spec
section 4.3 in the fixed order recorded by `checks` (online, validator
intention, client version, connection age, identity, uptime, reward
destination, commission, self-stake, unclaimed eras, cross-network): it
returns `(true, "")` exactly when every check passes, and returns
`(false, r)` exactly when some check fails with reason `r` and all checks
before it pass, so the first failing check supplies the reason and no later
check can influence the verdict. -/
theorem checkSingleCandidate_fixed_order (env : Env) (cfg : Config)
    (c : Candidate) (table : List (String × Nat)) :
    (checkSingleCandidate env cfg c table = (true, "") ↔
      ∀ o ∈ checks env cfg c table, o = none) ∧
    (∀ r, checkSingleCandidate env cfg c table = (false, r) ↔
      ∃ l₁ l₂, checks env cfg c table = l₁ ++ some r :: l₂ ∧ ∀ o ∈ l₁, o = none) := by
  refine ⟨?_, fun r => ?_⟩
  · rw [checkSingleCandidate_eq]
    exact runChecks_eq_valid_iff _
  · rw [checkSingleCandidate_eq]
    exact runChecks_eq_invalid_iff _ r

theorem unclaimed_reason_ne_kusama_invalid (n a b s : String) :
    n ++ " has unclaimed eras: " ++ a ++ " prior to era: " ++ b ≠
      n ++ " has a kusama node that is invalid: " ++ s := by
  intro h
  have hd := congrArg String.data h
  simp only [String.data_append, List.append_assoc] at hd
  have h2 := List.append_cancel_left hd
  have h1 := congrArg (fun l => l[5]?) h2
  simp [List.getElem?_append_left] at h1

theorem unclaimed_reason_ne_kusama_rank (n a b s : String) :
    n ++ " has unclaimed eras: " ++ a ++ " prior to era: " ++ b ≠
      n ++ " has a Kusama stash with lower than 25 rank in the Kusama OTV programme: "
        ++ s ++ "." := by
  intro h
  have hd := congrArg String.data h
  simp only [String.data_append, List.append_assoc] at hd
  have h2 := List.append_cancel_left hd
  have h1 := congrArg (fun l => l[5]?) h2
  simp [List.getElem?_append_left] at h1

theorem checkKusama_reason_shape (env : Env) (c : Candidate) (r : String)
    (h : checkKusama env c = some r) :
    (∃ s, r = c.name ++ " has a kusama node that is invalid: " ++ s) ∨
    (∃ s, r = c.name ++ " has a Kusama stash with lower than 25 rank in the Kusama OTV programme: "
      ++ s ++ ".") := by
  unfold checkKusama at h
  rcases hks : c.kusamaStash with _ | ks
  · simp [hks] at h
  · simp only [hks] at h
    rcases hl : env.kusamaLookup ks with e | res
    · simp [hl] at h
    · simp only [hl] at h
      by_cases h1 : jsTruthyStr res.invalidityReasons = true
      · simp only [h1, if_true] at h
        exact Or.inl ⟨res.invalidityReasons.getD "", (Option.some.injEq _ _ ▸ h).symm⟩
      · by_cases h2 : rankBelow25 res.rank = true
        · simp only [h1, h2, if_false, if_true] at h
          exact Or.inr ⟨rankText res.rank, by simpa using h.symm⟩
        · simp [h1, h2] at h

/-- Claim C3: when a candidate reaches the unclaimed-rewards check (the nine
earlier checks pass), `skipUnclaimed` is off and `unclaimedEras` is present,
the checker computes `threshold = currentEra - unclaimedEraThreshold - 1` and
returns Invalid citing the unclaimed eras exactly when some entry of
`unclaimedEras` is at most that threshold. -/
theorem checkSingleCandidate_unclaimed_threshold (env : Env) (cfg : Config)
    (c : Candidate) (table : List (String × Nat)) (eras : List ℚ)
    (hreach : ∀ o ∈ (checks env cfg c table).take 9, o = none)
    (hskip : cfg.skipUnclaimed = false)
    (heras : c.unclaimedEras = some eras) :
    (∃ era ∈ eras, era ≤ (env.getActiveEraIndex).1 - cfg.unclaimedEraThreshold - 1) ↔
      checkSingleCandidate env cfg c table =
        (false, c.name ++ " has unclaimed eras: " ++ toString eras ++ " prior to era: "
          ++ toString ((env.getActiveEraIndex).1 - cfg.unclaimedEraThreshold - 1 + 1)) := by
  have hdecomp : checks env cfg c table =
      (checks env cfg c table).take 9 ++ [checkUnclaimed env cfg c, checkKusama env c] := rfl
  have hff9 : firstFailure ((checks env cfg c table).take 9) = none :=
    firstFailure_eq_none_of_forall _ hreach
  have hrun : checkSingleCandidate env cfg c table =
      runChecks [checkUnclaimed env cfg c, checkKusama env c] := by
    rw [checkSingleCandidate_eq, runChecks, hdecomp, firstFailure_append, hff9,
      Option.none_or, ← runChecks]
  constructor
  · rintro ⟨era, hmem, hle⟩
    have hall : eras.all
        (fun e => e > (env.getActiveEraIndex).1 - cfg.unclaimedEraThreshold - 1) = false := by
      simp only [List.all_eq_false]
      exact ⟨era, hmem, by simpa using hle⟩
    have hcu : checkUnclaimed env cfg c =
        some (c.name ++ " has unclaimed eras: " ++ toString eras ++ " prior to era: "
          ++ toString ((env.getActiveEraIndex).1 - cfg.unclaimedEraThreshold - 1 + 1)) := by
      unfold checkUnclaimed
      simp [hskip, heras, hall]
    rw [hrun, hcu]
    rfl
  · intro hres
    by_contra hno
    push_neg at hno
    have hall : eras.all
        (fun e => e > (env.getActiveEraIndex).1 - cfg.unclaimedEraThreshold - 1) = true := by
      simp only [List.all_eq_true]
      intro e he
      simpa using hno e he
    have hcu : checkUnclaimed env cfg c = none := by
      unfold checkUnclaimed
      simp [hskip, heras, hall]
    rw [hrun, hcu] at hres
    rcases hk : checkKusama env c with _ | r
    · rw [hk] at hres
      exact absurd (congrArg Prod.fst hres) (by simp [runChecks, firstFailure])
    · rw [hk] at hres
      have hr : r = c.name ++ " has unclaimed eras: " ++ toString eras ++ " prior to era: "
          ++ toString ((env.getActiveEraIndex).1 - cfg.unclaimedEraThreshold - 1 + 1) := by
        simpa [runChecks, firstFailure] using congrArg Prod.snd hres
      rcases checkKusama_reason_shape env c r hk with ⟨s, hs⟩ | ⟨s, hs⟩
      · exact unclaimed_reason_ne_kusama_invalid c.name (toString eras)
          (toString ((env.getActiveEraIndex).1 - cfg.unclaimedEraThreshold - 1 + 1)) s
          (hr ▸ hs)
      · exact unclaimed_reason_ne_kusama_rank c.name (toString eras)
          (toString ((env.getActiveEraIndex).1 - cfg.unclaimedEraThreshold - 1 + 1)) s
          (hr ▸ hs)

/-- A concrete environment in which the sample candidates below pass every
check: one registered validator stash, identity present and verified, no
latest release record, commission and bonded reads succeed, era 100, and a
cross-network lookup that throws. -/
def passEnv : Env where
  validators := ["STASH"]
  formatAddress := fun s => s
  latestRelease := none
  versionGte := fun _ _ => true
  now := 1209600000
  hasIdentity := fun _ => (true, true)
  getIdentity := fun _ => "ID"
  blake2AsHex := fun s => s
  destinationIsStaked := fun _ => true
  getCommission := fun _ => (0, none)
  getBondedAmount := fun _ => (100, none)
  getActiveEraIndex := (100, none)
  kusamaLookup := fun _ => Except.error "network error"

/-- A concrete configuration with no check skipped, commission ceiling 10,
minimum self-stake 10 and unclaimed-era threshold 4. -/
def passCfg : Config where
  skipConnectionTime := false
  skipIdentity := false
  skipStakedDestination := false
  skipClientUpgrade := false
  skipUnclaimed := false
  minSelfStake := 10
  commission := 10
  unclaimedEraThreshold := 4

/-- A concrete candidate that passes all eleven checks in `passEnv` and
`passCfg`. -/
def passCand : Candidate where
  name := "alpha"
  stash := "STASH"
  identity := "ID"
  version := "v1"
  discoveredAt := 0
  onlineSince := 1
  offlineSince := 0
  offlineAccumulated := 0
  bonded := 100
  faults := 0
  inclusion := 0
  spanInclusion := 0
  rank := 10
  nominatedAt := 0
  unclaimedEras := some [200]
  kusamaStash := none
  skipSelfStake := false

/-- Witness scenario for claim C3: `passCand` with `unclaimedEras = [90]`. -/
def candC3 : Candidate := { passCand with unclaimedEras := some [90] }

/-- Witness for claim C3, the end-to-end scenario of the spec:
`unclaimedEras = [90]`, current era 100, `unclaimedEraThreshold = 4`, so the
threshold is 95, `90 ≤ 95`, and the verdict is Invalid citing the unclaimed
eras prior to era 96. -/
theorem checkSingleCandidate_unclaimed_threshold_witness :
    checkSingleCandidate passEnv passCfg candC3 [("ID", 1)] =
      (false, candC3.name ++ " has unclaimed eras: " ++ toString [(90 : ℚ)]
        ++ " prior to era: "
        ++ toString ((passEnv.getActiveEraIndex).1 - passCfg.unclaimedEraThreshold - 1 + 1)) :=
  (checkSingleCandidate_unclaimed_threshold passEnv passCfg candC3 [("ID", 1)] [90]
    (by norm_num [checks, checkOnline, checkIntention, checkVersion, checkConnection,
      checkIdentity, checkUptime, checkStaked, checkCommission, checkSelfStake,
      passEnv, passCfg, candC3, passCand, identityNumIds, mapGetD, clientVersionStale,
      WEEK, List.find?]) rfl rfl).mp
    ⟨90, by norm_num, by norm_num [passEnv, passCfg]⟩

/-- Claim C8: when a candidate with a secondary-network stash passes the ten
earlier checks and the cross-network HTTP lookup throws, the exception is
swallowed and the verdict is Valid; a lookup failure is never an invalidity
reason. -/
theorem checkSingleCandidate_kusama_error_swallowed (env : Env) (cfg : Config)
    (c : Candidate) (table : List (String × Nat)) (ks e : String)
    (hpass : ∀ o ∈ (checks env cfg c table).take 10, o = none)
    (hks : c.kusamaStash = some ks)
    (hlookup : env.kusamaLookup ks = Except.error e) :
    checkSingleCandidate env cfg c table = (true, "") := by
  have hdecomp : checks env cfg c table =
      (checks env cfg c table).take 10 ++ [checkKusama env c] := rfl
  have hk : checkKusama env c = none := by
    unfold checkKusama
    simp [hks, hlookup]
  rw [checkSingleCandidate_eq, runChecks, hdecomp, firstFailure_append,
    firstFailure_eq_none_of_forall _ hpass, Option.none_or, hk]
  rfl

/-- Witness scenario for claim C8: `passCand` with a kusama stash, in an
environment whose cross-network lookup throws. -/
def candC8 : Candidate := { passCand with kusamaStash := some "KSTASH" }

/-- Witness for claim C8: the candidate with a kusama stash whose advisory
lookup throws a network error still reaches a Valid verdict. -/
theorem checkSingleCandidate_kusama_error_swallowed_witness :
    checkSingleCandidate passEnv passCfg candC8 [("ID", 1)] = (true, "") :=
  checkSingleCandidate_kusama_error_swallowed passEnv passCfg candC8 [("ID", 1)]
    "KSTASH" "network error"
    (by norm_num [checks, checkOnline, checkIntention, checkVersion, checkConnection,
      checkIdentity, checkUptime, checkStaked, checkCommission, checkSelfStake,
      checkUnclaimed, passEnv, passCfg, candC8, passCand, identityNumIds, mapGetD,
      clientVersionStale, WEEK, List.find?]) rfl rfl

/-- Claim C10: a delivered cross-network response with a falsy
`invalidityReasons` and a missing or non-numeric `rank` (so that
`Number(rank)` is `NaN` and `NaN < 25` is false) never fails the candidate:
the cross-network check returns no reason and the verdict equals the verdict
of the ten earlier checks alone. -/
theorem checkSingleCandidate_kusama_rank_nan (env : Env) (cfg : Config)
    (c : Candidate) (table : List (String × Nat)) (ks : String)
    (resp : KusamaResponse)
    (hks : c.kusamaStash = some ks)
    (hlookup : env.kusamaLookup ks = Except.ok resp)
    (hreasons : jsTruthyStr resp.invalidityReasons = false)
    (hrank : resp.rank = none) :
    checkKusama env c = none ∧
    checkSingleCandidate env cfg c table =
      runChecks ((checks env cfg c table).take 10) := by
  have hk : checkKusama env c = none := by
    unfold checkKusama
    simp [hks, hlookup, hreasons, hrank, rankBelow25]
  refine ⟨hk, ?_⟩
  have hdecomp : checks env cfg c table =
      (checks env cfg c table).take 10 ++ [checkKusama env c] := rfl
  rw [checkSingleCandidate_eq]
  conv_lhs => rw [hdecomp]
  simp only [runChecks, firstFailure_append, hk, firstFailure, Option.or_none]

/-- Environment for the witness of claim C10: the lookup answers with neither
invalidity reasons nor a numeric rank. -/
def envC10 : Env :=
  { passEnv with kusamaLookup := fun _ => Except.ok ⟨none, none⟩ }

/-- Witness for claim C10 at a concrete candidate and response. -/
theorem checkSingleCandidate_kusama_rank_nan_witness :
    checkKusama envC10 candC8 = none ∧
    checkSingleCandidate envC10 passCfg candC8 [("ID", 1)] =
      runChecks ((checks envC10 passCfg candC8 [("ID", 1)]).take 10) :=
  checkSingleCandidate_kusama_rank_nan envC10 passCfg candC8 [("ID", 1)]
    "KSTASH" ⟨none, none⟩ rfl rfl rfl rfl

/-- Environment for the counterexample to claim C2: the active-era read
fails, everything else is as in `passEnv`. -/
def envEraErr : Env :=
  { passEnv with getActiveEraIndex := (100, some "ERA_READ_ERROR") }

/-- Environment showing that the era value paired with the error is used:
same failing era read, but with value 300. -/
def envEraErr300 : Env :=
  { passEnv with getActiveEraIndex := (300, some "ERA_READ_ERROR") }

/-- Counterexample to claim C2: `checkSingleCandidate` never inspects the
error component of `getActiveEraIndex` (the source destructures `err3` and
ignores it).  With a failing era read the verdict is still Valid, so the
error text does not surface as an invalidity reason; and the value paired
with the non-null error is used in the threshold comparison, since raising
it from 100 to 300 flips the verdict of the same candidate to Invalid. -/
theorem era_read_error_ignored_counterexample :
    (envEraErr.getActiveEraIndex).2 = some "ERA_READ_ERROR" ∧
    checkSingleCandidate envEraErr passCfg passCand [("ID", 1)] = (true, "") ∧
    (envEraErr300.getActiveEraIndex).2 = some "ERA_READ_ERROR" ∧
    (checkSingleCandidate envEraErr300 passCfg passCand [("ID", 1)]).1 = false := by
  refine ⟨rfl, ?_, rfl, ?_⟩ <;>
    norm_num [checkSingleCandidate, checkSelfStakeThen, checkUnclaimedThen,
      checkKusamaThen, envEraErr, envEraErr300, passEnv, passCfg, passCand,
      identityNumIds, mapGetD, clientVersionStale, WEEK, List.find?]

/-- Claim C2 (amended): for the commission and bonded-amount reads of
`checkSingleCandidate`, a non-null error makes the verdict Invalid with the
error text contained in the reason, and the paired value is never compared
(the conclusion holds for every paired value).  The amendment drops the
era-index read, whose error component the source ignores. -/
theorem read_error_becomes_invalid_reason (env : Env) (cfg : Config)
    (c : Candidate) (table : List (String × Nat))
    (hreach : ∀ o ∈ (checks env cfg c table).take 7, o = none) :
    (∀ v e, env.getCommission c.stash = (v, some e) →
      checkSingleCandidate env cfg c table = (false, c.name ++ " " ++ e) ∧
      ∃ p q, (checkSingleCandidate env cfg c table).2.data = p ++ e.data ++ q) ∧
    (∀ v w e, env.getCommission c.stash = (v, none) → ¬ v > cfg.commission →
      c.skipSelfStake = false → env.getBondedAmount c.stash = (w, some e) →
      checkSingleCandidate env cfg c table = (false, c.name ++ " " ++ e) ∧
      ∃ p q, (checkSingleCandidate env cfg c table).2.data = p ++ e.data ++ q) := by
  have hdecomp : checks env cfg c table =
      (checks env cfg c table).take 7 ++
        [checkCommission env cfg c, checkSelfStake env cfg c,
         checkUnclaimed env cfg c, checkKusama env c] := rfl
  have hrun : checkSingleCandidate env cfg c table =
      runChecks [checkCommission env cfg c, checkSelfStake env cfg c,
        checkUnclaimed env cfg c, checkKusama env c] := by
    rw [checkSingleCandidate_eq, runChecks, hdecomp, firstFailure_append,
      firstFailure_eq_none_of_forall _ hreach, Option.none_or, ← runChecks]
  constructor
  · intro v e hcomm
    have hcc : checkCommission env cfg c = some (c.name ++ " " ++ e) := by
      unfold checkCommission
      rw [hcomm]
    have hres : checkSingleCandidate env cfg c table = (false, c.name ++ " " ++ e) := by
      rw [hrun, runChecks, firstFailure_cons, hcc]
      rfl
    refine ⟨hres, (c.name ++ " ").data, [], ?_⟩
    rw [hres]
    simp [String.data_append]
  · intro v w e hcomm hle hss hbond
    have hcc : checkCommission env cfg c = none := by
      unfold checkCommission
      rw [hcomm]
      simp [hle]
    have hcs : checkSelfStake env cfg c = some (c.name ++ " " ++ e) := by
      unfold checkSelfStake
      rw [hss, hbond]
      rfl
    have hres : checkSingleCandidate env cfg c table = (false, c.name ++ " " ++ e) := by
      rw [hrun, runChecks, firstFailure_cons, hcc, Option.none_or,
        firstFailure_cons, hcs]
      rfl
    refine ⟨hres, (c.name ++ " ").data, [], ?_⟩
    rw [hres]
    simp [String.data_append]

/-- Environment for the witness of the amended claim C2: the commission read
fails. -/
def envCommErr : Env :=
  { passEnv with getCommission := fun _ => (7, some "COMMISSION_READ_ERROR") }

/-- Witness for the amended claim C2 at a concrete failing commission read. -/
theorem read_error_becomes_invalid_reason_witness :
    checkSingleCandidate envCommErr passCfg passCand [("ID", 1)] =
      (false, passCand.name ++ " " ++ "COMMISSION_READ_ERROR") ∧
    ∃ p q, (checkSingleCandidate envCommErr passCfg passCand [("ID", 1)]).2.data =
      p ++ ("COMMISSION_READ_ERROR").data ++ q :=
  (read_error_becomes_invalid_reason envCommErr passCfg passCand [("ID", 1)]
    (by norm_num [checks, checkOnline, checkIntention, checkVersion, checkConnection,
      checkIdentity, checkUptime, checkStaked, envCommErr, passEnv, passCfg, passCand,
      identityNumIds, mapGetD, clientVersionStale, WEEK, List.find?])).1
    7 "COMMISSION_READ_ERROR" rfl

theorem mapSet_increment_sum (m : List (String × Nat)) (k : String) :
    ((mapSet m k (mapGetD m k 0 + 1)).map Prod.snd).sum =
      ((m.map Prod.snd)).sum + 1 := by
  induction m with
  | nil => simp [mapSet, mapGetD, List.find?]
  | cons p rest ih =>
    by_cases h : p.1 == k
    · simp [mapSet, mapGetD, List.find?, h]
      omega
    · simp only [mapSet, mapGetD, List.find?, h] at ih ⊢
      simp only [Bool.false_eq_true, if_false, List.map_cons, List.sum_cons]
      omega

theorem mapSet_mem (m : List (String × Nat)) (k : String) (v : Nat)
    (p : String × Nat) (hp : p ∈ mapSet m k v) : p ∈ m ∨ p = (k, v) := by
  induction m with
  | nil => simpa [mapSet] using hp
  | cons q rest ih =>
    by_cases h : q.1 == k
    · simp only [mapSet, h, if_true] at hp
      rcases List.mem_cons.1 hp with h1 | h1
      · exact Or.inr h1
      · exact Or.inl (List.mem_cons.2 (Or.inr h1))
    · simp only [mapSet, h, Bool.false_eq_true, if_false] at hp
      rcases List.mem_cons.1 hp with h1 | h1
      · exact Or.inl (List.mem_cons.2 (Or.inl h1))
      · rcases ih h1 with h2 | h2
        · exact Or.inl (List.mem_cons.2 (Or.inr h2))
        · exact Or.inr h2

theorem foldl_increment_sum (key : Candidate → String) (l : List Candidate) :
    ∀ m : List (String × Nat),
      (((l.foldl (fun map c => mapSet map (key c) (mapGetD map (key c) 0 + 1)) m)).map
        Prod.snd).sum = (m.map Prod.snd).sum + l.length := by
  induction l with
  | nil => simp
  | cons c rest ih =>
    intro m
    rw [List.foldl_cons, ih, mapSet_increment_sum]
    simp
    omega

theorem foldl_increment_pos (key : Candidate → String) (l : List Candidate) :
    ∀ m : List (String × Nat), (∀ p ∈ m, 1 ≤ p.2) →
      ∀ p ∈ l.foldl (fun map c => mapSet map (key c) (mapGetD map (key c) 0 + 1)) m,
        1 ≤ p.2 := by
  induction l with
  | nil => intro m hm; simpa using hm
  | cons c rest ih =>
    intro m hm
    rw [List.foldl_cons]
    refine ih _ (fun p hp => ?_)
    rcases mapSet_mem _ _ _ p hp with h | h
    · exact hm p h
    · simp [h]

/-- Claim C9: every occurrence count in the table built by
`populateIdentityHashTable` is at least 1, and the counts sum to the number
of candidates: each candidate contributes exactly one increment to exactly
one digest entry. -/
theorem populateIdentityHashTable_counts (env : Env) (candidates : List Candidate) :
    (∀ p ∈ populateIdentityHashTable env candidates, 1 ≤ p.2) ∧
    ((populateIdentityHashTable env candidates).map Prod.snd).sum =
      candidates.length := by
  constructor
  · exact foldl_increment_pos (fun c => env.blake2AsHex (env.getIdentity c.stash))
      candidates [] (by simp)
  · simpa using foldl_increment_sum
      (fun c => env.blake2AsHex (env.getIdentity c.stash)) candidates []

/-- Minimum of a population, 0 when empty. -/
def listMin : List ℚ → ℚ
  | [] => 0
  | x :: xs => xs.foldl min x

/-- Maximum of a population, 0 when empty. -/
def listMax : List ℚ → ℚ
  | [] => 0
  | x :: xs => xs.foldl max x

/-- Modelled from the spec: `scaled` of the score module (`src/score.ts` is
not under `src/`), spec section 4.1: min-max normalization
`(value - min) / (max - min)`, returning 0 when the range is degenerate
(`max = min`, including empty or singleton populations). -/
def scaled (value : ℚ) (population : List ℚ) : ℚ :=
  let lo := listMin population
  let hi := listMax population
  if hi = lo then 0 else (value - lo) / (hi - lo)

/-- The per-candidate score record written by `db.setValidatorScore` and
carried by the ranked projection (`score` object of `getValidCandidates`). -/
structure Score where
  total : ℚ
  aggregate : ℚ
  inclusion : ℚ
  spanInclusion : ℚ
  discovered : ℚ
  nominated : ℚ
  rank : ℚ
  unclaimed : ℚ
  bonded : ℚ
  faults : ℚ
  offline : ℚ
  randomness : ℚ
  updated : ℚ
deriving DecidableEq, Repr

/-- The ranked projection of a candidate built at the end of
`getValidCandidates` (its `aggregate` field holds the whole score record, as
in the source). -/
structure RankedCandidate where
  aggregate : Score
  discoveredAt : ℚ
  rank : ℚ
  unclaimedEras : Option (List ℚ)
  inclusion : ℚ
  spanInclusion : ℚ
  name : String
  stash : String
  identity : String
  nominatedAt : ℚ
  bonded : ℚ
deriving DecidableEq, Repr

/-- The mutable state of an `OTV` instance together with the log of
`db.setValidatorScore` upserts (stash and score record, in call order). -/
structure OTVState where
  validCache : List RankedCandidate
  invalidCache : List String
  dbScores : List (String × Score)
deriving DecidableEq, Repr

def INCLUSION_WEIGHT : ℚ := 5
def SPAN_INCLUSION_WEIGHT : ℚ := 40
def DISCOVERED_WEIGHT : ℚ := 5
def NOMINATED_WEIGHT : ℚ := 35
def RANK_WEIGHT : ℚ := 5
def UNCLAIMED_WEIGHT : ℚ := 15
def BONDED_WEIGHT : ℚ := 13
def FAULTS_WEIGHT : ℚ := 5
def OFFLINE_WEIGHT : ℚ := 2

/-- Population `bondedValues` of `getValidCandidates` (the source guard
`candidate.bonded ? candidate.bonded : 0` maps falsy, i.e. zero, to 0). -/
def bondedValues (validCandidates : List Candidate) : List ℚ :=
  validCandidates.map fun candidate =>
    if candidate.bonded ≠ 0 then candidate.bonded else 0

/-- Population `faultsValues` of `getValidCandidates`. -/
def faultsValues (validCandidates : List Candidate) : List ℚ :=
  validCandidates.map fun candidate =>
    if candidate.faults ≠ 0 then candidate.faults else 0

/-- Population `inclusionValues` of `getValidCandidates`. -/
def inclusionValues (validCandidates : List Candidate) : List ℚ :=
  validCandidates.map fun candidate =>
    if candidate.inclusion ≠ 0 then candidate.inclusion else 0

/-- Population `spanInclusionValues` of `getValidCandidates`. -/
def spanInclusionValues (validCandidates : List Candidate) : List ℚ :=
  validCandidates.map fun candidate =>
    if candidate.spanInclusion ≠ 0 then candidate.spanInclusion else 0

/-- Population `discoveredAtValues` of `getValidCandidates`. -/
def discoveredAtValues (validCandidates : List Candidate) : List ℚ :=
  validCandidates.map fun candidate =>
    if candidate.discoveredAt ≠ 0 then candidate.discoveredAt else 0

/-- Population `nominatedAtValues` of `getValidCandidates`. -/
def nominatedAtValues (validCandidates : List Candidate) : List ℚ :=
  validCandidates.map fun candidate =>
    if candidate.nominatedAt ≠ 0 then candidate.nominatedAt else 0

/-- Population `offlineValues` of `getValidCandidates`. -/
def offlineValues (validCandidates : List Candidate) : List ℚ :=
  validCandidates.map fun candidate =>
    if candidate.offlineAccumulated ≠ 0 then candidate.offlineAccumulated else 0

/-- Population `rankValues` of `getValidCandidates`. -/
def rankValues (validCandidates : List Candidate) : List ℚ :=
  validCandidates.map fun candidate =>
    if candidate.rank ≠ 0 then candidate.rank else 0

/-- Population `unclaimedValues` of `getValidCandidates`
(`candidate.unclaimedEras && candidate.unclaimedEras.length ? ... : 0`). -/
def unclaimedValues (validCandidates : List Candidate) : List ℚ :=
  validCandidates.map fun candidate =>
    match candidate.unclaimedEras with
    | some unclaimedEras => (unclaimedEras.length : ℚ)
    | none => 0

/-- The score record computed for one candidate inside the scoring loop of
`getValidCandidates` (`src/constraints.ts` lines 405-469); `randomnessDraw`
models the `Math.random()` sample of that iteration, and `updated` the
`Date.now()` timestamp. -/
def scoreOf (env : Env) (validCandidates : List Candidate) (randomnessDraw : ℚ)
    (candidate : Candidate) : Score :=
  let scaledInclusion := scaled candidate.inclusion (inclusionValues validCandidates)
  let inclusionScore := (1 - scaledInclusion) * INCLUSION_WEIGHT
  let scaledSpanInclusion :=
    scaled candidate.spanInclusion (spanInclusionValues validCandidates)
  let spanInclusionScore := (1 - scaledSpanInclusion) * SPAN_INCLUSION_WEIGHT
  let scaledDiscovered :=
    scaled candidate.discoveredAt (discoveredAtValues validCandidates)
  let discoveredScore := (1 - scaledDiscovered) * DISCOVERED_WEIGHT
  let scaledNominated :=
    scaled candidate.nominatedAt (nominatedAtValues validCandidates)
  let nominatedScore := (1 - scaledNominated) * NOMINATED_WEIGHT
  let scaledRank := scaled candidate.rank (rankValues validCandidates)
  let rankScore := scaledRank * RANK_WEIGHT
  let scaledUnclaimed :=
    match candidate.unclaimedEras with
    | some unclaimedEras =>
      scaled (unclaimedEras.length : ℚ) (unclaimedValues validCandidates)
    | none => 0
  let unclaimedScore := (1 - scaledUnclaimed) * UNCLAIMED_WEIGHT
  let scaledBonded := scaled candidate.bonded (bondedValues validCandidates)
  let bondedScore := if scaledBonded ≠ 0 then scaledBonded * BONDED_WEIGHT else 0
  let scaledOffline :=
    scaled candidate.offlineAccumulated (offlineValues validCandidates)
  let offlineScore := (1 - scaledOffline) * OFFLINE_WEIGHT
  let scaledFaults := scaled candidate.faults (faultsValues validCandidates)
  let faultsScore := (1 - scaledFaults) * FAULTS_WEIGHT
  let aggregate := inclusionScore + spanInclusionScore + faultsScore + discoveredScore
    + nominatedScore + rankScore + unclaimedScore + bondedScore + offlineScore
  let randomness := 1 + randomnessDraw * 0.05
  { total := aggregate * randomness
    aggregate := aggregate
    inclusion := inclusionScore
    spanInclusion := spanInclusionScore
    discovered := discoveredScore
    nominated := nominatedScore
    rank := rankScore
    unclaimed := unclaimedScore
    bonded := bondedScore
    faults := faultsScore
    offline := offlineScore
    randomness := randomness
    updated := env.now }

/-- The ranked projection pushed onto `rankedCandidates` for one candidate. -/
def rankedOf (candidate : Candidate) (score : Score) : RankedCandidate where
  aggregate := score
  discoveredAt := candidate.discoveredAt
  rank := candidate.rank
  unclaimedEras := candidate.unclaimedEras
  inclusion := candidate.inclusion
  spanInclusion := candidate.spanInclusion
  name := candidate.name
  stash := candidate.stash
  identity := candidate.identity
  nominatedAt := candidate.nominatedAt
  bonded := candidate.bonded

/-- `OTV.getValidCandidates` (`src/constraints.ts` lines 300-512): filter the
candidates through `checkSingleCandidate`, score each valid candidate in
order with an independent randomness draw (`rand i` models the `Math.random()`
call of iteration `i`), persist each score via `db.setValidatorScore` (the
`dbScores` log), sort descending by `total` (the JavaScript comparator
`(a, b) => b.aggregate.total - a.aggregate.total` puts `a` before `b` exactly
when `b.aggregate.total ≤ a.aggregate.total`, with a stable sort), replace
`validCache` with the sorted sequence and return it.  The
`db.setValidatorScoreMetadata` upsert persists the dimension statistics and
weights only; it influences neither the returned ranking, the caches, nor
the per-candidate score records, and is elided. -/
def getValidCandidates (env : Env) (cfg : Config) (rand : Nat → ℚ)
    (candidates : List Candidate) (identityHashTable : List (String × Nat))
    (st : OTVState) : List RankedCandidate × OTVState :=
  let validCandidates := candidates.filter
    (fun candidate => (checkSingleCandidate env cfg candidate identityHashTable).1)
  let scoredCandidates := validCandidates.enum.map
    (fun p => rankedOf p.2 (scoreOf env validCandidates (rand p.1) p.2))
  let scoreEvents := scoredCandidates.map (fun rc => (rc.stash, rc.aggregate))
  let rankedCandidates := scoredCandidates.mergeSort
    (fun a b => decide (b.aggregate.total ≤ a.aggregate.total))
  (rankedCandidates,
    { st with validCache := rankedCandidates, dbScores := st.dbScores ++ scoreEvents })

theorem mergeSort_total_sorted (l : List RankedCandidate) :
    List.Pairwise (fun a b => b.aggregate.total ≤ a.aggregate.total)
      (l.mergeSort (fun a b => decide (b.aggregate.total ≤ a.aggregate.total))) := by
  have h := @List.sorted_mergeSort RankedCandidate
    (fun a b => decide (b.aggregate.total ≤ a.aggregate.total))
    (fun a b c hab hbc => by
      simp only [decide_eq_true_eq] at hab hbc ⊢
      exact le_trans hbc hab)
    (fun a b => by
      simp only [Bool.or_eq_true, decide_eq_true_eq]
      exact le_total _ _)
    l
  exact h.imp (fun hab => of_decide_eq_true hab)

/-- Claim C5: every sequence returned by `getValidCandidates` is sorted
descending by `total` (pairwise, hence for any two adjacent entries `a`
before `b`, `a.total ≥ b.total`), and `validCache` is replaced wholesale
with exactly the returned sequence. -/
theorem getValidCandidates_sorted_and_cached (env : Env) (cfg : Config)
    (rand : Nat → ℚ) (candidates : List Candidate)
    (identityHashTable : List (String × Nat)) (st : OTVState) :
    List.Pairwise (fun a b => b.aggregate.total ≤ a.aggregate.total)
      (getValidCandidates env cfg rand candidates identityHashTable st).1 ∧
    ((getValidCandidates env cfg rand candidates identityHashTable st).2).validCache =
      (getValidCandidates env cfg rand candidates identityHashTable st).1 := by
  constructor
  · exact mergeSort_total_sorted _
  · rfl

theorem scoreOf_invariants (env : Env) (validCandidates : List Candidate)
    (r : ℚ) (candidate : Candidate) (hr : 0 ≤ r ∧ r < 1) :
    (scoreOf env validCandidates r candidate).aggregate =
      (scoreOf env validCandidates r candidate).inclusion
      + (scoreOf env validCandidates r candidate).spanInclusion
      + (scoreOf env validCandidates r candidate).discovered
      + (scoreOf env validCandidates r candidate).nominated
      + (scoreOf env validCandidates r candidate).rank
      + (scoreOf env validCandidates r candidate).unclaimed
      + (scoreOf env validCandidates r candidate).bonded
      + (scoreOf env validCandidates r candidate).faults
      + (scoreOf env validCandidates r candidate).offline ∧
    1 ≤ (scoreOf env validCandidates r candidate).randomness ∧
    (scoreOf env validCandidates r candidate).randomness < 1.05 ∧
    (scoreOf env validCandidates r candidate).total =
      (scoreOf env validCandidates r candidate).aggregate *
        (scoreOf env validCandidates r candidate).randomness := by
  unfold scoreOf
  simp only []
  constructor
  · ring
  constructor
  · have h05 : (0 : ℚ) ≤ r * 0.05 := mul_nonneg hr.1 (by norm_num)
    linarith
  constructor
  · have h05 : r * 0.05 < 1 * 0.05 := mul_lt_mul_of_pos_right hr.2 (by norm_num)
    linarith
  · trivial

/-- Claim C4: every score record produced by one `getValidCandidates` pass,
whether persisted through `db.setValidatorScore` or cached in the ranked
projection, has `aggregate` equal to the exact sum of the nine sub-scores,
a jitter multiplier `randomness` in the half-open interval `[1, 1.05)`
(given that every `Math.random()` draw lies in `[0, 1)`), and
`total = aggregate * randomness`. -/
theorem getValidCandidates_score_record (env : Env) (cfg : Config)
    (rand : Nat → ℚ) (candidates : List Candidate)
    (identityHashTable : List (String × Nat)) (st : OTVState) (s : Score)
    (hr : ∀ i, 0 ≤ rand i ∧ rand i < 1)
    (hs : s ∈ (getValidCandidates env cfg rand candidates identityHashTable st).1.map
        RankedCandidate.aggregate ∨
      s ∈ (((getValidCandidates env cfg rand candidates identityHashTable st).2).dbScores.drop
        st.dbScores.length).map Prod.snd) :
    s.aggregate = s.inclusion + s.spanInclusion + s.discovered + s.nominated
      + s.rank + s.unclaimed + s.bonded + s.faults + s.offline ∧
    1 ≤ s.randomness ∧ s.randomness < 1.05 ∧
    s.total = s.aggregate * s.randomness := by
  simp only [getValidCandidates] at hs
  set valid := candidates.filter
    (fun candidate => (checkSingleCandidate env cfg candidate identityHashTable).1) with hv
  set scored := valid.enum.map
    (fun p => rankedOf p.2 (scoreOf env valid (rand p.1) p.2)) with hsco
  have hmain : ∀ rc ∈ scored, rc.aggregate.aggregate =
      rc.aggregate.inclusion + rc.aggregate.spanInclusion + rc.aggregate.discovered
      + rc.aggregate.nominated + rc.aggregate.rank + rc.aggregate.unclaimed
      + rc.aggregate.bonded + rc.aggregate.faults + rc.aggregate.offline ∧
      1 ≤ rc.aggregate.randomness ∧ rc.aggregate.randomness < 1.05 ∧
      rc.aggregate.total = rc.aggregate.aggregate * rc.aggregate.randomness := by
    intro rc hrc
    rw [hsco] at hrc
    obtain ⟨⟨i, c⟩, hmem, rfl⟩ := List.mem_map.1 hrc
    simpa [rankedOf] using scoreOf_invariants env valid (rand i) c (hr i)
  rcases hs with hs | hs
  · obtain ⟨rc, hrc, rfl⟩ := List.mem_map.1 hs
    exact hmain rc ((List.mergeSort_perm scored _).mem_iff.1 hrc)
  · rw [List.drop_left] at hs
    simp only [List.map_map] at hs
    obtain ⟨rc, hrc, rfl⟩ := List.mem_map.1 hs
    exact hmain rc hrc

theorem passCand_checks_valid :
    checkSingleCandidate passEnv passCfg passCand [("ID", 1)] = (true, "") := by
  norm_num [checkSingleCandidate, checkSelfStakeThen, checkUnclaimedThen,
    checkKusamaThen, passEnv, passCfg, passCand, identityNumIds, mapGetD,
    clientVersionStale, WEEK, List.find?]

/-- Witness for claim C4: the concrete score record of the single valid
candidate of a concrete pass satisfies all three invariants. -/
theorem getValidCandidates_score_record_witness :
    (scoreOf passEnv [passCand] (1 / 2) passCand).aggregate =
      (scoreOf passEnv [passCand] (1 / 2) passCand).inclusion
      + (scoreOf passEnv [passCand] (1 / 2) passCand).spanInclusion
      + (scoreOf passEnv [passCand] (1 / 2) passCand).discovered
      + (scoreOf passEnv [passCand] (1 / 2) passCand).nominated
      + (scoreOf passEnv [passCand] (1 / 2) passCand).rank
      + (scoreOf passEnv [passCand] (1 / 2) passCand).unclaimed
      + (scoreOf passEnv [passCand] (1 / 2) passCand).bonded
      + (scoreOf passEnv [passCand] (1 / 2) passCand).faults
      + (scoreOf passEnv [passCand] (1 / 2) passCand).offline ∧
    1 ≤ (scoreOf passEnv [passCand] (1 / 2) passCand).randomness ∧
    (scoreOf passEnv [passCand] (1 / 2) passCand).randomness < 1.05 ∧
    (scoreOf passEnv [passCand] (1 / 2) passCand).total =
      (scoreOf passEnv [passCand] (1 / 2) passCand).aggregate *
        (scoreOf passEnv [passCand] (1 / 2) passCand).randomness :=
  getValidCandidates_score_record passEnv passCfg (fun _ => 1 / 2) [passCand]
    [("ID", 1)] ⟨[], [], []⟩ (scoreOf passEnv [passCand] (1 / 2) passCand)
    (fun _ => ⟨by norm_num, by norm_num⟩)
    (Or.inl (by
      simp [getValidCandidates, passCand_checks_valid, rankedOf]))

/-- Commission stage of the `processCandidates` loop (`src/constraints.ts`
lines 569-583): a failing read or a commission above the ceiling puts the
candidate in the bad set. -/
def processCommission (env : Env) (cfg : Config) (candidate : Candidate) :
    Option String :=
  match env.getCommission candidate.stash with
  | (_, some err) => some (candidate.name ++ " " ++ err)
  | (commission, none) =>
    if commission > cfg.commission then
      some (candidate.name ++ " found commission higher than ten percent: "
        ++ toString commission)
    else none

/-- Self-stake stage of the `processCandidates` loop (lines 585-599). -/
def processSelfStake (env : Env) (cfg : Config) (candidate : Candidate) :
    Option String :=
  if candidate.skipSelfStake then none
  else
    match env.getBondedAmount candidate.stash with
    | (_, some err2) => some (candidate.name ++ " " ++ err2)
    | (bondedAmt, none) =>
      if bondedAmt < cfg.minSelfStake then
        some (candidate.name ++ " has less than the minimum required amount bonded: "
          ++ toString bondedAmt)
      else none

/-- Reward-destination stage of the `processCandidates` loop (lines 601-608). -/
def processStaked (env : Env) (cfg : Config) (candidate : Candidate) :
    Option String :=
  if ¬ cfg.skipStakedDestination ∧ ¬ env.destinationIsStaked candidate.stash then
    some (candidate.name ++ " does not have reward destination set to Staked")
  else none

/-- Uptime stage of the `processCandidates` loop (lines 610-619). -/
def processUptime (candidate : Candidate) : Option String :=
  if candidate.offlineAccumulated / WEEK > 0.02 then
    some (candidate.name ++ " has been offline "
      ++ toString (candidate.offlineAccumulated / 1000 / 60) ++ " minutes this week.")
  else none

/-- The reduced rule subset of one `processCandidates` iteration, in source
order with first-failure-wins semantics (each failing stage does
`bad.add` and `continue`). -/
def processCheckCandidate (env : Env) (cfg : Config) (candidate : Candidate) :
    Option String :=
  firstFailure [processCommission env cfg candidate, processSelfStake env cfg candidate,
    processStaked env cfg candidate, processUptime candidate]

/-- The per-candidate loop of `processCandidates`: null candidates are
skipped (added to neither set), a failing candidate goes to the bad set with
its reason, every other candidate goes to the good set; iteration order is
the input order. -/
def processLoop (env : Env) (cfg : Config) :
    List (Option Candidate) → List Candidate × List (Candidate × String)
  | [] => ([], [])
  | none :: rest => processLoop env cfg rest
  | some candidate :: rest =>
    let r := processLoop env cfg rest
    match processCheckCandidate env cfg candidate with
    | some reason => (r.1, (candidate, reason) :: r.2)
    | none => (candidate :: r.1, r.2)

/-- `OTV.processCandidates` (`src/constraints.ts` lines 538-644): fetch the
active era index first and throw its error if the read failed (modelled as
`Except.error`), otherwise partition the cohort with `processLoop`. -/
def processCandidates (env : Env) (cfg : Config)
    (candidates : List (Option Candidate)) :
    Except String (List Candidate × List (Candidate × String)) :=
  match env.getActiveEraIndex with
  | (_, some eraErr) => Except.error eraErr
  | (_, none) => Except.ok (processLoop env cfg candidates)

/-- Claim C6: a failing active-era read makes `processCandidates` throw that
error (no partition is produced), and it is the only failure that aborts the
call: with a successful era read the call always returns a partition, every
other read failure becoming a per-candidate verdict. -/
theorem processCandidates_era_error_fatal (env : Env) (cfg : Config)
    (candidates : List (Option Candidate)) :
    (∀ v e, env.getActiveEraIndex = (v, some e) →
      processCandidates env cfg candidates = Except.error e) ∧
    (∀ v, env.getActiveEraIndex = (v, none) →
      ∃ good bad, processCandidates env cfg candidates = Except.ok (good, bad)) := by
  constructor
  · intro v e h
    unfold processCandidates
    rw [h]
  · intro v h
    refine ⟨(processLoop env cfg candidates).1, (processLoop env cfg candidates).2, ?_⟩
    unfold processCandidates
    rw [h]

/-- Witness for claim C6: with a concrete failing era read the call throws,
and with a successful one it returns a partition. -/
theorem processCandidates_era_error_fatal_witness :
    processCandidates envEraErr passCfg [some passCand] =
      Except.error "ERA_READ_ERROR" ∧
    ∃ good bad, processCandidates passEnv passCfg [some passCand] =
      Except.ok (good, bad) :=
  ⟨(processCandidates_era_error_fatal envEraErr passCfg [some passCand]).1
      100 "ERA_READ_ERROR" rfl,
    (processCandidates_era_error_fatal passEnv passCfg [some passCand]).2 100 rfl⟩

/-- Claim C7: in `processCandidates`, every non-null candidate of the cohort
whose commission read succeeds with a value strictly above the ceiling lands
in the bad set, with a reason mentioning its commission, whatever its other
fields hold: the commission stage is the first of the reduced rule subset. -/
theorem processCandidates_commission_first (env : Env) (cfg : Config)
    (candidates : List (Option Candidate)) (candidate : Candidate) (v : ℚ)
    (hera : (env.getActiveEraIndex).2 = none)
    (hmem : some candidate ∈ candidates)
    (hcomm : env.getCommission candidate.stash = (v, none))
    (hv : v > cfg.commission) :
    ∃ good bad, processCandidates env cfg candidates = Except.ok (good, bad) ∧
      (candidate, candidate.name ++ " found commission higher than ten percent: "
        ++ toString v) ∈ bad ∧
      ∃ p q, (candidate.name ++ " found commission higher than ten percent: "
        ++ toString v).data = p ++ ("commission").data ++ q := by
  have hstep : processCheckCandidate env cfg candidate =
      some (candidate.name ++ " found commission higher than ten percent: "
        ++ toString v) := by
    unfold processCheckCandidate processCommission
    rw [hcomm]
    simp [hv, firstFailure]
  have hbad : (candidate, candidate.name ++ " found commission higher than ten percent: "
      ++ toString v) ∈ (processLoop env cfg candidates).2 := by
    induction candidates with
    | nil => simp at hmem
    | cons o rest ih =>
      rcases List.mem_cons.1 hmem with ho | ho
      · subst ho
        unfold processLoop
        rw [hstep]
        simp
      · cases o with
        | none =>
          unfold processLoop
          exact ih ho
        | some c2 =>
          unfold processLoop
          rcases h2 : processCheckCandidate env cfg c2 with _ | r <;> simp [ih ho]
  refine ⟨(processLoop env cfg candidates).1, (processLoop env cfg candidates).2, ?_, hbad,
    (candidate.name ++ " found ").data,
    (" higher than ten percent: " ++ toString v).data, ?_⟩
  · unfold processCandidates
    rcases he : env.getActiveEraIndex with ⟨w, _ | e⟩
    · rfl
    · rw [he] at hera
      simp at hera
  · simp [String.data_append]

/-- Environment for the witness of claim C7: the commission read returns 50,
above the ceiling 10 of `passCfg`. -/
def envHighComm : Env :=
  { passEnv with getCommission := fun _ => (50, none) }

/-- Witness for claim C7 at a concrete cohort. -/
theorem processCandidates_commission_first_witness :
    ∃ good bad, processCandidates envHighComm passCfg [some passCand] =
      Except.ok (good, bad) ∧
      (passCand, passCand.name ++ " found commission higher than ten percent: "
        ++ toString (50 : ℚ)) ∈ bad ∧
      ∃ p q, (passCand.name ++ " found commission higher than ten percent: "
        ++ toString (50 : ℚ)).data = p ++ ("commission").data ++ q :=
  processCandidates_commission_first envHighComm passCfg [some passCand] passCand 50
    rfl (by simp) rfl (by norm_num [passCfg])
